import Mathlib

/-!
Verification development for the `uhdr2avif` repository
(crates `libuhdr` and `uhdr2avif`).

The Rust sources are shallowly embedded:
* machine floats (`f32` / `f64`) whose uses in the verified claims are pure
  arithmetic are modelled as exact rationals `ℚ`; the transcendental
  functions `powf` / `exp2` are modelled over `ℝ` with `Real.rpow`;
* `usize` indices are modelled as `ℕ`, with the saturating behaviour of
  Rust `as usize` casts made explicit;
* byte streams (`std::io::Read + Seek`) are modelled as a `List ℕ` of
  bytes together with an explicit cursor position, and fallible reads
  return `Except`.
-/

namespace Uhdr

/-! ## Embedding of `jpeg.rs`: `UhdrJpeg::sample_bilinear` addressing

`sample_bilinear` works on `f32`; we embed the arithmetic over `ℚ`.
The Rust primitives used by the code are modelled explicitly:
`f32::fract` (fractional part toward zero), `f32::floor`, and the
saturating `as usize` cast.
-/

/-- Model of Rust `f32::trunc`: round toward zero. -/
def rustTrunc (q : ℚ) : ℤ := if 0 ≤ q then ⌊q⌋ else ⌈q⌉

/-- Model of Rust `f32::fract`: `self - self.trunc()`. -/
def rustFract (q : ℚ) : ℚ := q - rustTrunc q

/-- Model of the Rust `as usize` cast on an `f32`: truncate toward zero,
saturating at `0` below and at `usize::MAX = 2^64 - 1` above. -/
def f32ToUsize (q : ℚ) : ℕ := if q ≤ 0 then 0 else min ⌊q⌋.toNat (2 ^ 64 - 1)

/-- Embeds `src/crates/libuhdr/src/jpeg.rs`, `sample_bilinear`: the pre-cast value of
`base_x` (`x.floor() - 1.0` if `x.fract() < 0.5`, else `x.floor()`), with `x = u * width`. -/
def baseXRaw (width : ℕ) (u : ℚ) : ℚ :=
  let x : ℚ := u * width
  if rustFract x < 1 / 2 then (⌊x⌋ : ℚ) - 1 else (⌊x⌋ : ℚ)

/-- Embeds `src/crates/libuhdr/src/jpeg.rs`, `sample_bilinear`: the pre-cast value of
`base_y` (`y - 1.0` if `y.fract() < 0.5`, else `y.floor()`), with `y = v * height`.
Note the first branch is `y - 1.0`, not `y.floor() - 1.0`. -/
def baseYRaw (height : ℕ) (v : ℚ) : ℚ :=
  let y : ℚ := v * height
  if rustFract y < 1 / 2 then y - 1 else (⌊y⌋ : ℚ)

/-- Embeds `(base_x as usize).clamp(0, width - 1)` from `sample_bilinear`. -/
def sampleBaseX (width : ℕ) (u : ℚ) : ℕ :=
  min (f32ToUsize (baseXRaw width u)) (width - 1)

/-- Embeds `(base_y as usize).clamp(0, height - 1)` from `sample_bilinear`. -/
def sampleBaseY (height : ℕ) (v : ℚ) : ℕ :=
  min (f32ToUsize (baseYRaw height v)) (height - 1)

/-- The base-texel rule as the specification states it: `floor(x) - 1` when the
fractional part of `x` is below `0.5`, else `floor(x)`, then clamped into
`[0, n-1]` (stated over `ℤ` and brought back to `ℕ`). -/
def specBase (n : ℕ) (x : ℚ) : ℕ :=
  (min (max (if x - ⌊x⌋ < 1 / 2 then ⌊x⌋ - 1 else ⌊x⌋) 0) ((n : ℤ) - 1)).toNat

/-! ## Embedding of `jpeg.rs`: `UhdrJpeg::get_pixel_as_rgb888` -/

/-- The color spaces distinguished by `get_pixel_as_rgb888`
(`zune_jpeg::zune_core::colorspace::ColorSpace`). -/
inductive JpegCS where
  | rgb
  | luma
  | other
deriving DecidableEq

/-- The part of `UhdrJpeg` that `get_pixel_as_rgb888` consumes:
image info extent plus the decoded pixel bytes and their color space. -/
structure JpegImage where
  width : ℕ
  height : ℕ
  colorSpace : JpegCS
  pixels : List ℕ
deriving DecidableEq

/-- Embeds `src/crates/libuhdr/src/jpeg.rs`, `UhdrJpeg::get_pixel_as_rgb888`:
computes a linear pixel index from `(x, y)` and the color space, and reads
three bytes if `pixel_index < pixels.len()`, else returns `None`. -/
def getPixelAsRgb888 (img : JpegImage) (x y : ℕ) : Option (ℕ × ℕ × ℕ) :=
  match img.colorSpace with
  | .other => none
  | .rgb =>
    let pixelIndex := (y * img.width + x) * 3
    if pixelIndex < img.pixels.length then
      some (img.pixels.getD pixelIndex 0,
            img.pixels.getD (pixelIndex + 1) 0,
            img.pixels.getD (pixelIndex + 2) 0)
    else
      none
  | .luma =>
    let pixelIndex := (y * img.width + x) * 1
    if pixelIndex < img.pixels.length then
      some (img.pixels.getD pixelIndex 0,
            img.pixels.getD pixelIndex 0,
            img.pixels.getD pixelIndex 0)
    else
      none

/-! ## Embedding of `gainmap.rs`: `GainMapMetadata`

The XMP packet is parsed by `roxmltree`; we embed the parsed document as a
tree of elements. `text` models `roxmltree::Node::text()` (the first text
child, if any); `children` holds the element children (named-tag lookups in
the source only ever match element nodes, whose tag names are non-empty).
`f32` values obtained from `str::parse` are modelled as exact rationals;
the model parser accepts the decimal / scientific grammar of Rust's float
`FromStr` (infinities and NaN are outside the rational model). -/

structure XmlElem where
  name : String
  attrs : List (String × String)
  children : List XmlElem
  text : Option String

/-- Accumulate leading decimal digits: returns the value read so far, the
number of digits consumed, and the remaining characters. -/
def takeDigits : ℕ → ℕ → List Char → ℕ × ℕ × List Char
  | acc, n, [] => (acc, n, [])
  | acc, n, c :: cs =>
    if c.isDigit then takeDigits (acc * 10 + (c.toNat - 48)) (n + 1) cs
    else (acc, n, c :: cs)

/-- Optional exponent suffix of Rust's float grammar (`(e|E) sign? digits`),
applied to an already-parsed significand. -/
def parseExpSuffix (sgn : ℚ) (mant : ℚ) : List Char → Option ℚ
  | [] => some (sgn * mant)
  | c :: r =>
    if c = 'e' ∨ c = 'E' then
      let (esgn, r2) : ℤ × List Char :=
        match r with
        | '+' :: t => (1, t)
        | '-' :: t => (-1, t)
        | t => (1, t)
      match takeDigits 0 0 r2 with
      | (ev, ne, r3) =>
        if ne = 0 ∨ r3 ≠ [] then none
        else some (sgn * mant * (10 : ℚ) ^ (esgn * (ev : ℤ)))
    else none

/-- Model of Rust `str::parse::<f32>` over `ℚ`:
`sign? (digits | digits '.' digits* | '.' digits) exp?`. -/
def parseF32 (s : String) : Option ℚ :=
  let cs := s.data
  let (sgn, cs1) : ℚ × List Char :=
    match cs with
    | '+' :: r => (1, r)
    | '-' :: r => (-1, r)
    | r => (1, r)
  match takeDigits 0 0 cs1 with
  | (ipart, ni, rest) =>
    match rest with
    | '.' :: r =>
      match takeDigits 0 0 r with
      | (fpart, nf, r2) =>
        if ni + nf = 0 then none
        else parseExpSuffix sgn ((ipart : ℚ) + (fpart : ℚ) / (10 : ℚ) ^ nf) r2
    | r => if ni = 0 then none else parseExpSuffix sgn (ipart : ℚ) r

/-- Model of Rust `str::parse::<bool>`: exactly `"true"` or `"false"`. -/
def parseBool (s : String) : Option Bool :=
  if s = "true" then some true else if s = "false" then some false else none

/-- First attribute of the element with the given name (`attributes().find`). -/
def findAttr (e : XmlElem) (n : String) : Option String :=
  (e.attrs.find? (fun a => a.1 == n)).map (fun a => a.2)

/-- First element child with the given tag name (`children().find`). -/
def findChild (e : XmlElem) (n : String) : Option XmlElem :=
  e.children.find? (fun c => c.name == n)

/-- Embeds `GainMapMetadata::read_single_bool_value`: prefer the attribute (whose
parse failure is final), else the text of the named child element. -/
def readSingleBoolValue (desc : XmlElem) (n : String) : Option Bool :=
  match findAttr desc n with
  | some v => parseBool v
  | none => do
    let child ← findChild desc n
    let t ← child.text
    parseBool t

/-- Embeds `GainMapMetadata::read_single_f32_value`: prefer the attribute (whose
parse failure is final), else the text of the named child element. -/
def readSingleF32Value (desc : XmlElem) (n : String) : Option ℚ :=
  match findAttr desc n with
  | some v => parseF32 v
  | none => do
    let child ← findChild desc n
    let t ← child.text
    parseF32 t

/-- The loop body of `GainMapMetadata::read_seq_rgb_value`: walk the `li`
children, collecting values whose text parses, stopping at three. -/
def collectLis : List XmlElem → List ℚ → List ℚ
  | [], acc => acc
  | li :: r, acc =>
    if 3 ≤ acc.length then acc
    else
      match li.text.bind parseF32 with
      | some v => collectLis r (acc ++ [v])
      | none => collectLis r acc

/-- Embeds `GainMapMetadata::read_seq_rgb_value`: require a `Seq` child, then
exactly three parsable `li` values. -/
def readSeqRgbValue (v : XmlElem) : Option (ℚ × ℚ × ℚ) :=
  match findChild v "Seq" with
  | none => none
  | some seq =>
    match collectLis (seq.children.filter (fun c => c.name == "li")) [] with
    | [a, b, c] => some (a, b, c)
    | _ => none

/-- Embeds `GainMapMetadata::read_rgb_f32_value`: an attribute is parsed as a scalar
and replicated across the three channels; otherwise the named child element
is handed to `read_seq_rgb_value`. -/
def readRgbF32Value (desc : XmlElem) (n : String) : Option (ℚ × ℚ × ℚ) :=
  match findAttr desc n with
  | some s => (parseF32 s).map (fun v => (v, v, v))
  | none => (findChild desc n).bind readSeqRgbValue

/-- Embeds `src/crates/libuhdr/src/gainmap.rs`, `GainMapMetadata`. -/
structure GainMapMetadata where
  baseRenditionIsHdr : Bool
  gainMapMin : ℚ × ℚ × ℚ
  gainMapMax : ℚ × ℚ × ℚ
  gamma : ℚ × ℚ × ℚ
  offsetSdr : ℚ × ℚ × ℚ
  offsetHdr : ℚ × ℚ × ℚ
  hdrCapacityMin : ℚ
  hdrCapacityMax : ℚ
deriving DecidableEq

/-- Embeds `GainMapMetadata::new_from_xmp_bytes`, after `roxmltree` parsing and the
location of the first `Description` element (which the source `unwrap`s on a
well-formed packet): every field defaults except `HDRCapacityMax`. -/
def newFromXmp (desc : XmlElem) : Option GainMapMetadata :=
  match readSingleF32Value desc "HDRCapacityMax" with
  | none => none
  | some capMax =>
    some
      { baseRenditionIsHdr := (readSingleBoolValue desc "BaseRenditionIsHDR").getD false
        gainMapMin := (readRgbF32Value desc "GainMapMin").getD (0, 0, 0)
        gainMapMax := (readRgbF32Value desc "GainMapMax").getD (0, 0, 0)
        gamma := (readRgbF32Value desc "Gamma").getD (1, 1, 1)
        offsetSdr := (readRgbF32Value desc "OffsetSDR").getD (1 / 64, 1 / 64, 1 / 64)
        offsetHdr := (readRgbF32Value desc "OffsetHDR").getD (1 / 64, 1 / 64, 1 / 64)
        hdrCapacityMin := (readSingleF32Value desc "HDRCapacityMin").getD 0
        hdrCapacityMax := capMax }

/-! ## Embedding of `pixel.rs` / `uhdr.rs`: `FloatPixel` and the boost compositor

`FloatPixel` stores `[f32; 4]` with a fourth component that the source keeps
at `0.0` and never uses; we model the three live components over `ℝ`
(`powf` and `exp2` are transcendental). -/

structure FloatPixel where
  r : ℝ
  g : ℝ
  b : ℝ

namespace FloatPixel

def zero : FloatPixel := ⟨0, 0, 0⟩

def one : FloatPixel := ⟨1, 1, 1⟩

/-- Embeds `impl ops::Add for FloatPixel`. -/
noncomputable def add (p q : FloatPixel) : FloatPixel :=
  ⟨p.r + q.r, p.g + q.g, p.b + q.b⟩

/-- Embeds `impl ops::Sub for FloatPixel`. -/
noncomputable def sub (p q : FloatPixel) : FloatPixel :=
  ⟨p.r - q.r, p.g - q.g, p.b - q.b⟩

/-- Embeds `impl ops::Mul for FloatPixel` (component-wise). -/
noncomputable def mul (p q : FloatPixel) : FloatPixel :=
  ⟨p.r * q.r, p.g * q.g, p.b * q.b⟩

/-- Embeds `impl ops::Mul<f32> for FloatPixel`. -/
noncomputable def smul (p : FloatPixel) (s : ℝ) : FloatPixel :=
  ⟨p.r * s, p.g * s, p.b * s⟩

/-- Embeds `FloatPixel::powf` (component-wise `f32::powf`). -/
noncomputable def powf (lhs rhs : FloatPixel) : FloatPixel :=
  ⟨lhs.r ^ rhs.r, lhs.g ^ rhs.g, lhs.b ^ rhs.b⟩

/-- Embeds `FloatPixel::rcp` (component-wise `1.0 / x`). -/
noncomputable def rcp (p : FloatPixel) : FloatPixel :=
  ⟨1 / p.r, 1 / p.g, 1 / p.b⟩

/-- Embeds `FloatPixel::exp2` (component-wise `f32::exp2`). -/
noncomputable def exp2 (p : FloatPixel) : FloatPixel :=
  ⟨(2 : ℝ) ^ p.r, (2 : ℝ) ^ p.g, (2 : ℝ) ^ p.b⟩

end FloatPixel

/-- Embeds `src/crates/libuhdr/src/uhdr.rs`, `UhdrBoostComputer`. -/
structure UhdrBoostComputer where
  invGamma : FloatPixel
  gainMapMin : FloatPixel
  gainMapMax : FloatPixel
  offsetSdr : FloatPixel
  offsetHdr : FloatPixel
  weightFactor : ℝ

/-- Embeds `UhdrBoostComputer::compute_boosted`. -/
noncomputable def computeBoosted (c : UhdrBoostComputer) (sdr recovery : FloatPixel) :
    FloatPixel :=
  let logRecovery := FloatPixel.powf recovery c.invGamma
  let logBoost :=
    FloatPixel.add (FloatPixel.mul c.gainMapMin (FloatPixel.sub FloatPixel.one logRecovery))
      (FloatPixel.mul c.gainMapMax logRecovery)
  let boost := (logBoost.smul c.weightFactor).exp2
  FloatPixel.sub (FloatPixel.mul (FloatPixel.add sdr c.offsetSdr) boost) c.offsetHdr

/-! ## Embedding of `outavif.rs`: `st2084_oetf` -/

/-- Embeds `src/crates/libuhdr/src/outavif.rs`, `st2084_oetf`: the SMPTE ST.2084
inverse EOTF, with the source's constants `M1 = 2610/16384`,
`M2 = 2523/4096*128`, `C1 = 3424/4096`, `C2 = 2413/4096*32`,
`C3 = 2392/4096*32`. -/
noncomputable def st2084Oetf (color : ℝ) : ℝ :=
  let m1 : ℝ := 2610 / 16384
  let m2 : ℝ := 2523 / 4096 * 128
  let c1 : ℝ := 3424 / 4096
  let c2 : ℝ := 2413 / 4096 * 32
  let c3 : ℝ := 2392 / 4096 * 32
  let cp := |color| ^ m1
  let numerator := c1 + c2 * cp
  let denominator := 1 + c3 * cp
  (numerator / denominator) ^ m2

/-! ## Embedding of `tiff.rs`

The `Read + Seek` stream is a `List ℕ` of bytes with an explicit cursor;
`read_exact` past the end fails with the I/O error the source maps from
`UnexpectedEof`, which is distinct from the `InvalidData` errors the parser
constructs itself.  `unimplemented!()` panics are a third, distinct outcome.
`f32` / `f64` TIFF values are carried as their raw bit patterns. -/

inductive Endianness where
  | littleEndian
  | bigEndian
deriving DecidableEq

inductive TiffErr where
  | invalidData
  | eof
  | panicked
deriving DecidableEq

/-- Embeds `Read::read_exact` on an in-memory cursor: `n` bytes at `pos`, or
`UnexpectedEof`. -/
def readExact (bytes : List ℕ) (pos n : ℕ) : Except TiffErr (List ℕ × ℕ) :=
  if pos + n ≤ bytes.length then .ok ((bytes.drop pos).take n, pos + n)
  else .error .eof

/-- Little-endian value of a byte list (first byte least significant). -/
def leValue : List ℕ → ℕ
  | [] => 0
  | b :: r => b + 256 * leValue r

/-- Embeds `from_le_bytes` / `from_be_bytes` according to the endianness. -/
def endianValue (e : Endianness) (l : List ℕ) : ℕ :=
  match e with
  | .littleEndian => leValue l
  | .bigEndian => leValue l.reverse

/-- Embeds `tiff.rs` free function `read_u16`. -/
def readU16 (bytes : List ℕ) (e : Endianness) (pos : ℕ) :
    Except TiffErr (ℕ × ℕ) := do
  let (buf, p) ← readExact bytes pos 2
  .ok (endianValue e buf, p)

/-- Embeds `tiff.rs` free function `read_u32`. -/
def readU32 (bytes : List ℕ) (e : Endianness) (pos : ℕ) :
    Except TiffErr (ℕ × ℕ) := do
  let (buf, p) ← readExact bytes pos 4
  .ok (endianValue e buf, p)

/-- Embeds `tiff.rs` free function `read_u64`. -/
def readU64 (bytes : List ℕ) (e : Endianness) (pos : ℕ) :
    Except TiffErr (ℕ × ℕ) := do
  let (buf, p) ← readExact bytes pos 8
  .ok (endianValue e buf, p)

inductive TiffFieldType where
  | byte
  | ascii
  | short
  | long
  | rational
  | sbyte
  | undefined
  | sshort
  | slong
  | srational
  | float
  | double
  | long8
  | slong8
deriving DecidableEq

/-- Embeds `TiffFieldType::from_u16` (derived `FromPrimitive` over the `repr(u16)`
discriminants `1..=12, 16, 17`). -/
def TiffFieldType.fromU16 (n : ℕ) : Option TiffFieldType :=
  match n with
  | 1 => some .byte
  | 2 => some .ascii
  | 3 => some .short
  | 4 => some .long
  | 5 => some .rational
  | 6 => some .sbyte
  | 7 => some .undefined
  | 8 => some .sshort
  | 9 => some .slong
  | 10 => some .srational
  | 11 => some .float
  | 12 => some .double
  | 16 => some .long8
  | 17 => some .slong8
  | _ => none

/-- Embeds `TiffFieldType::size`; `none` models the `unimplemented!()` panic taken
for `LONG8` and `SLONG8`. -/
def TiffFieldType.sizeOpt : TiffFieldType → Option ℕ
  | .byte => some 1
  | .ascii => some 1
  | .short => some 2
  | .long => some 4
  | .rational => some 8
  | .sbyte => some 1
  | .undefined => some 1
  | .sshort => some 2
  | .slong => some 4
  | .srational => some 8
  | .float => some 4
  | .double => some 8
  | .long8 => none
  | .slong8 => none

/-- Two's-complement reinterpretation of a byte as `i8`. -/
def toI8 (b : ℕ) : ℤ := if b < 128 then (b : ℤ) else (b : ℤ) - 256

/-- Two's-complement reinterpretation of a `u16` as `i16`. -/
def toI16 (v : ℕ) : ℤ := if v < 2 ^ 15 then (v : ℤ) else (v : ℤ) - 2 ^ 16

/-- Two's-complement reinterpretation of a `u32` as `i32`. -/
def toI32 (v : ℕ) : ℤ := if v < 2 ^ 31 then (v : ℤ) else (v : ℤ) - 2 ^ 32

/-- Whether a continuation byte of a UTF-8 sequence is in `0x80..=0xBF`. -/
def utf8Cont (b : ℕ) : Bool := decide (0x80 ≤ b ∧ b ≤ 0xBF)

/-- UTF-8 validity of a byte list, as checked by `String::from_utf8`. -/
def utf8Valid : List ℕ → Bool
  | [] => true
  | b :: rest =>
    if b ≤ 0x7F then utf8Valid rest
    else if 0xC2 ≤ b ∧ b ≤ 0xDF then
      match rest with
      | c1 :: r => utf8Cont c1 && utf8Valid r
      | [] => false
    else if b = 0xE0 then
      match rest with
      | c1 :: c2 :: r => decide (0xA0 ≤ c1 ∧ c1 ≤ 0xBF) && utf8Cont c2 && utf8Valid r
      | _ => false
    else if (0xE1 ≤ b ∧ b ≤ 0xEC) ∨ b = 0xEE ∨ b = 0xEF then
      match rest with
      | c1 :: c2 :: r => utf8Cont c1 && utf8Cont c2 && utf8Valid r
      | _ => false
    else if b = 0xED then
      match rest with
      | c1 :: c2 :: r => decide (0x80 ≤ c1 ∧ c1 ≤ 0x9F) && utf8Cont c2 && utf8Valid r
      | _ => false
    else if b = 0xF0 then
      match rest with
      | c1 :: c2 :: c3 :: r =>
        decide (0x90 ≤ c1 ∧ c1 ≤ 0xBF) && utf8Cont c2 && utf8Cont c3 && utf8Valid r
      | _ => false
    else if 0xF1 ≤ b ∧ b ≤ 0xF3 then
      match rest with
      | c1 :: c2 :: c3 :: r => utf8Cont c1 && utf8Cont c2 && utf8Cont c3 && utf8Valid r
      | _ => false
    else if b = 0xF4 then
      match rest with
      | c1 :: c2 :: c3 :: r =>
        decide (0x80 ≤ c1 ∧ c1 ≤ 0x8F) && utf8Cont c2 && utf8Cont c3 && utf8Valid r
      | _ => false
    else false

inductive TiffFieldValue where
  | byte (vals : List ℕ)
  | ascii (vals : List ℕ)
  | short (vals : List ℕ)
  | long (vals : List ℕ)
  | rational (vals : List (ℕ × ℕ))
  | sbyte (vals : List ℤ)
  | undefined (vals : List ℕ)
  | sshort (vals : List ℤ)
  | slong (vals : List ℤ)
  | srational (vals : List (ℤ × ℤ))
  | float (bits : List ℕ)
  | double (bits : List ℕ)
deriving DecidableEq

/-- Run a positioned reader `count` times in sequence (the `for i in 0..count`
loops of `TiffFieldValue::from_reader`). -/
def readCount {α : Type} (f : ℕ → Except TiffErr (α × ℕ)) :
    ℕ → ℕ → Except TiffErr (List α × ℕ)
  | 0, pos => .ok ([], pos)
  | n + 1, pos =>
    match f pos with
    | .error er => .error er
    | .ok (v, p) =>
      match readCount f n p with
      | .error er => .error er
      | .ok (vs, p2) => .ok (v :: vs, p2)

/-- Embeds `TiffFieldValue::from_reader`. The `LONG8`/`SLONG8` arms model the
`unimplemented!()` panic. -/
def TiffFieldValue.fromReader (bytes : List ℕ) (e : Endianness)
    (ft : TiffFieldType) (count : ℕ) (pos : ℕ) :
    Except TiffErr (TiffFieldValue × ℕ) :=
  match ft with
  | .byte => do
    let (buf, p) ← readExact bytes pos count
    .ok (.byte buf, p)
  | .ascii => do
    let (buf, p) ← readExact bytes pos count
    if utf8Valid buf then .ok (.ascii buf, p) else .error .invalidData
  | .short => do
    let (vs, p) ← readCount (readU16 bytes e) count pos
    .ok (.short vs, p)
  | .long => do
    let (vs, p) ← readCount (readU32 bytes e) count pos
    .ok (.long vs, p)
  | .rational => do
    let (vs, p) ←
      readCount
        (fun q => do
          let (n1, q1) ← readU32 bytes e q
          let (d1, q2) ← readU32 bytes e q1
          .ok ((n1, d1), q2))
        count pos
    .ok (.rational vs, p)
  | .sbyte => do
    let (buf, p) ← readExact bytes pos count
    .ok (.sbyte (buf.map toI8), p)
  | .undefined => do
    let (buf, p) ← readExact bytes pos count
    .ok (.undefined buf, p)
  | .sshort => do
    let (vs, p) ←
      readCount
        (fun q => do
          let (v, q1) ← readU16 bytes e q
          .ok (toI16 v, q1))
        count pos
    .ok (.sshort vs, p)
  | .slong => do
    let (vs, p) ←
      readCount
        (fun q => do
          let (v, q1) ← readU32 bytes e q
          .ok (toI32 v, q1))
        count pos
    .ok (.slong vs, p)
  | .srational => do
    let (vs, p) ←
      readCount
        (fun q => do
          let (n1, q1) ← readU32 bytes e q
          let (d1, q2) ← readU32 bytes e q1
          .ok ((toI32 n1, toI32 d1), q2))
        count pos
    .ok (.srational vs, p)
  | .float => do
    let (vs, p) ← readCount (readU32 bytes e) count pos
    .ok (.float vs, p)
  | .double => do
    let (vs, p) ← readCount (readU64 bytes e) count pos
    .ok (.double vs, p)
  | .long8 => .error .panicked
  | .slong8 => .error .panicked

structure TiffIfdEntry where
  tag : ℕ
  fieldType : TiffFieldType
  count : ℕ
  fieldValue : TiffFieldValue
deriving DecidableEq

structure TiffIfd where
  entries : List TiffIfdEntry
  nextIfdOffset : Option ℕ
deriving DecidableEq

structure TiffHeader where
  endianness : Endianness
  version : ℕ
  firstIfdOffset : ℕ
deriving DecidableEq

structure Tiff where
  header : TiffHeader
  ifds : List TiffIfd
deriving DecidableEq

/-- Embeds `TiffHeader::new`. -/
def TiffHeader.new (bytes : List ℕ) : Except TiffErr (TiffHeader × ℕ) := do
  let (byteOrder, p1) ← readU16 bytes .littleEndian 0
  if byteOrder ≠ 0x4949 ∧ byteOrder ≠ 0x4D4D then .error .invalidData
  else
    let e := if byteOrder = 0x4949 then Endianness.littleEndian else .bigEndian
    do
      let (version, p2) ← readU16 bytes e p1
      if version < 42 then .error .invalidData
      else do
        let (firstIfdOffset, p3) ← readU32 bytes e p2
        .ok (⟨e, version, firstIfdOffset⟩, p3)

/-- The body of `TiffIfd::new`'s entry loop for one entry: read
`{tag, type, count}`, then the value either inline in the value/offset slot
or via a seek to the absolute offset stored in the slot (saving and
restoring the cursor).  In the inline case the source continues directly
after the value's own bytes. -/
def parseEntry (bytes : List ℕ) (e : Endianness) (valueOffsetSize : ℕ)
    (pos : ℕ) : Except TiffErr (TiffIfdEntry × ℕ) := do
  let (tag, p1) ← readU16 bytes e pos
  let (ftRaw, p2) ← readU16 bytes e p1
  let (count, p3) ← readU32 bytes e p2
  match TiffFieldType.fromU16 ftRaw with
  | none => .error .invalidData
  | some ft =>
    match ft.sizeOpt with
    | none => .error .panicked
    | some tsz =>
      let size := tsz * count
      if size ≤ valueOffsetSize then do
        let (v, p4) ← TiffFieldValue.fromReader bytes e ft count p3
        .ok (⟨tag, ft, count, v⟩, p4)
      else do
        let (valueOffset, p4) ←
          if valueOffsetSize = 4 then readU32 bytes e p3
          else readU64 bytes e p3
        let (v, _) ← TiffFieldValue.fromReader bytes e ft count valueOffset
        .ok (⟨tag, ft, count, v⟩, p4)

/-- Embeds `TiffIfd::new`, positioned at `pos`. -/
def TiffIfd.new (bytes : List ℕ) (e : Endianness) (version : ℕ) (pos : ℕ) :
    Except TiffErr (TiffIfd × ℕ) := do
  let valueOffsetSize ←
    match version with
    | 42 => Except.ok 4
    | 43 => Except.ok 8
    | _ => Except.error TiffErr.invalidData
  let (entryCount, p1) ← readU16 bytes e pos
  if entryCount < 1 then .error .invalidData
  else do
    let (entries, p2) ← readCount (parseEntry bytes e valueOffsetSize) entryCount p1
    let (rawNext, p3) ← readU32 bytes e p2
    .ok (⟨entries, if rawNext = 0 then none else some rawNext⟩, p3)

/-- The `while let Some(offset) = ifd_offset` loop of `Tiff::from_reader`,
with explicit fuel; `none` means the fuel ran out before the loop finished. -/
def ifdLoop (bytes : List ℕ) (e : Endianness) (version : ℕ) :
    Option ℕ → ℕ → Option (Except TiffErr (List TiffIfd))
  | none, _ => some (.ok [])
  | some _, 0 => none
  | some off, fuel + 1 =>
    match TiffIfd.new bytes e version off with
    | .error er => some (.error er)
    | .ok (ifd, _) =>
      match ifdLoop bytes e version ifd.nextIfdOffset fuel with
      | none => none
      | some (.error er) => some (.error er)
      | some (.ok rest) => some (.ok (ifd :: rest))

/-- Embeds `Tiff::from_reader`, with explicit fuel for the IFD-chain loop. -/
def tiffFromReader (bytes : List ℕ) (fuel : ℕ) : Option (Except TiffErr Tiff) :=
  match TiffHeader.new bytes with
  | .error er => some (.error er)
  | .ok (h, _) =>
    match ifdLoop bytes h.endianness h.version (some h.firstIfdOffset) fuel with
    | none => none
    | some (.error er) => some (.error er)
    | some (.ok ifds) => some (.ok ⟨h, ifds⟩)

/-! ## Embedding of `colorspace.rs`

An `lcms2::Profile` is modelled as an association list from tag signatures
to tag payloads; `read_tag` is `has_tag` + `read_tag` of the source.  `f64`
arithmetic is modelled over `ℚ` (the `1e-10` singularity threshold is the
exact rational `1/10^10`).  The `panic!` / `assert!` paths of the tag
readers are a distinct `Except` outcome, separate from a `None` result.
Tone curves are opaque to the claims and carried as identifiers. -/

inductive TagSig where
  | profileDescriptionTag
  | copyrightTag
  | chromaticAdaptationTag
  | mediaWhitePointTag
  | chromaticityTag
  | redColorantTag
  | greenColorantTag
  | blueColorantTag
  | redTRCTag
  | greenTRCTag
  | blueTRCTag
deriving DecidableEq

/-- Embeds `lcms2::CIExyY`. -/
structure CIExyY where
  x : ℚ
  y : ℚ
  Y : ℚ
deriving DecidableEq

inductive IccTag where
  | mlu (text : String)
  | ciexyz (X Y Z : ℚ)
  | ciexyyTriple (red green blue : CIExyY)
  | toneCurve (id : ℕ)
  | otherTag
deriving DecidableEq

/-- A parsed ICC profile: its readable tags. -/
def IccProfile := List (TagSig × IccTag)

inductive IccPanic where
  | panicked
deriving DecidableEq

/-- Embeds `colorspace.rs` free function `read_tag` (`has_tag` guard + `read_tag`). -/
def readTag (p : IccProfile) (sig : TagSig) : Option IccTag :=
  (p.find? (fun t => decide (t.1 = sig))).map (fun t => t.2)

def hasTag (p : IccProfile) (sig : TagSig) : Bool :=
  (readTag p sig).isSome

/-- Embeds `read_mlu_tag`: `None` when absent, the text when an MLU tag, and a
panic otherwise. -/
def readMluTag (p : IccProfile) (sig : TagSig) : Except IccPanic (Option String) :=
  match readTag p sig with
  | none => .ok none
  | some (.mlu s) => .ok (some s)
  | some _ => .error .panicked

/-- Embeds `read_CIEXYZ_tag`: `None` when absent, the XYZ triple when a CIEXYZ tag,
and a panic otherwise. -/
def readCIEXYZTag (p : IccProfile) (sig : TagSig) :
    Except IccPanic (Option (ℚ × ℚ × ℚ)) :=
  match readTag p sig with
  | none => .ok none
  | some (.ciexyz X Y Z) => .ok (some (X, Y, Z))
  | some _ => .error .panicked

/-- Embeds `lcms2::XYZ2xyY`: `x = X/(X+Y+Z)`, `y = Y/(X+Y+Z)`, `Y = Y`. -/
def xyz2xyY (v : ℚ × ℚ × ℚ) : CIExyY :=
  let s := v.1 + v.2.1 + v.2.2
  ⟨v.1 / s, v.2.1 / s, v.2.1⟩

/-- Embeds `read_CIEXYZ_tag_as_CIExyY`. -/
def readCIEXYZTagAsCIExyY (p : IccProfile) (sig : TagSig) :
    Except IccPanic (Option CIExyY) :=
  match readCIEXYZTag p sig with
  | .error er => .error er
  | .ok none => .ok none
  | .ok (some v) => .ok (some (xyz2xyY v))

/-- Row-major 3×3 `f64` matrix. -/
structure Mat3 where
  a00 : ℚ
  a01 : ℚ
  a02 : ℚ
  a10 : ℚ
  a11 : ℚ
  a12 : ℚ
  a20 : ℚ
  a21 : ℚ
  a22 : ℚ
deriving DecidableEq

/-- Embeds `colorspace.rs` free function `transform_right`: row vector times
row-major matrix. -/
def transformRight (v : ℚ × ℚ × ℚ) (m : Mat3) : ℚ × ℚ × ℚ :=
  (v.1 * m.a00 + v.2.1 * m.a10 + v.2.2 * m.a20,
   v.1 * m.a01 + v.2.1 * m.a11 + v.2.2 * m.a21,
   v.1 * m.a02 + v.2.1 * m.a12 + v.2.2 * m.a22)

/-- Embeds `colorspace.rs` free function `invert_matrix`: adjugate over determinant,
`None` when `|det| < 1e-10`. -/
def invertMatrix (m : Mat3) : Option Mat3 :=
  let det :=
    m.a00 * (m.a11 * m.a22 - m.a12 * m.a21)
      - m.a01 * (m.a10 * m.a22 - m.a12 * m.a20)
      + m.a02 * (m.a10 * m.a21 - m.a11 * m.a20)
  if |det| < 1 / 10 ^ 10 then none
  else
    let invDet := 1 / det
    some
      ⟨(m.a11 * m.a22 - m.a12 * m.a21) * invDet,
       (m.a02 * m.a21 - m.a01 * m.a22) * invDet,
       (m.a01 * m.a12 - m.a02 * m.a11) * invDet,
       (m.a12 * m.a20 - m.a10 * m.a22) * invDet,
       (m.a00 * m.a22 - m.a02 * m.a20) * invDet,
       (m.a02 * m.a10 - m.a00 * m.a12) * invDet,
       (m.a10 * m.a21 - m.a11 * m.a20) * invDet,
       (m.a01 * m.a20 - m.a00 * m.a21) * invDet,
       (m.a00 * m.a11 - m.a01 * m.a10) * invDet⟩

structure ColorPrimaries where
  red : CIExyY
  green : CIExyY
  blue : CIExyY
deriving DecidableEq

/-- The row-major `to_d50` matrix `ColorGamut::from_icc_profile` builds from
the three xyY columns of a chad tag:
`[[Red.x, Green.x, Blue.x], [Red.y, Green.y, Blue.y], [Red.Y, Green.Y, Blue.Y]]`. -/
def chadMatrixOf (red green blue : CIExyY) : Mat3 :=
  ⟨red.x, green.x, blue.x,
   red.y, green.y, blue.y,
   red.Y, green.Y, blue.Y⟩

structure ColorGamut where
  primaries : ColorPrimaries
  whitePoint : CIExyY
deriving DecidableEq

/-- Embeds `ColorGamut::from_icc_profile`.  The `Ok none` results model the
source's `return None` / `?` propagations; `error` models the `panic!`
taken when the chromaticity or an XYZ-typed tag has an unexpected payload. -/
def ColorGamut.fromIccProfile (p : IccProfile) :
    Except IccPanic (Option ColorGamut) :=
  -- from_d50 block: chad tag
  let chadStep : Except IccPanic (Option (Option Mat3)) :=
    match readTag p .chromaticAdaptationTag with
    | some (.ciexyyTriple red green blue) =>
      match invertMatrix (chadMatrixOf red green blue) with
      | none => .ok none
      | some m => .ok (some (some m))
    | some _ => .ok none
    | none => .ok (some none)
  match chadStep with
  | .error er => .error er
  | .ok none => .ok none
  | .ok (some fromD50) =>
    match readCIEXYZTag p .mediaWhitePointTag with
    | .error er => .error er
    | .ok none => .ok none
    | .ok (some wpXYZ) =>
      let wpXYZ' :=
        match fromD50 with
        | some m => transformRight wpXYZ m
        | none => wpXYZ
      let whitePoint := xyz2xyY wpXYZ'
      match readTag p .chromaticityTag with
      | some (.ciexyyTriple red green blue) =>
        .ok (some ⟨⟨red, green, blue⟩, whitePoint⟩)
      | some _ => .error .panicked
      | none =>
        match readCIEXYZTagAsCIExyY p .redColorantTag with
        | .error er => .error er
        | .ok none => .ok none
        | .ok (some redPrimary) =>
          match readCIEXYZTagAsCIExyY p .greenColorantTag with
          | .error er => .error er
          | .ok none => .ok none
          | .ok (some greenPrimary) =>
            match readCIEXYZTagAsCIExyY p .blueColorantTag with
            | .error er => .error er
            | .ok none => .ok none
            | .ok (some bluePrimary) =>
              .ok (some ⟨⟨redPrimary, greenPrimary, bluePrimary⟩, whitePoint⟩)

structure TransferCharacteristics where
  red : Option ℕ
  green : Option ℕ
  blue : Option ℕ
deriving DecidableEq

/-- Embeds `TransferCharacteristics::from_icc_profile`: per channel, the tone curve
when the tag is present and is a tone curve, else `None`; the function as a
whole always returns `Some`. -/
def TransferCharacteristics.fromIccProfile (p : IccProfile) :
    Option TransferCharacteristics :=
  let channel := fun sig =>
    match readTag p sig with
    | some (.toneCurve c) => some c
    | _ => none
  some ⟨channel .redTRCTag, channel .greenTRCTag, channel .blueTRCTag⟩

structure IccColorSpace where
  description : Option String
  copyright : Option String
  colorGamut : ColorGamut
  transfer : TransferCharacteristics
deriving DecidableEq

/-- Embeds `IccColorSpace::from_icc_profile`. -/
def IccColorSpace.fromIccProfile (p : IccProfile) :
    Except IccPanic (Option IccColorSpace) :=
  match readMluTag p .profileDescriptionTag with
  | .error er => .error er
  | .ok description =>
    match readMluTag p .copyrightTag with
    | .error er => .error er
    | .ok copyright =>
      match ColorGamut.fromIccProfile p with
      | .error er => .error er
      | .ok none => .ok none
      | .ok (some colorGamut) =>
        match TransferCharacteristics.fromIccProfile p with
        | none => .ok none
        | some transfer =>
          .ok (some ⟨description, copyright, colorGamut, transfer⟩)

/-! ## Tag-shape predicates for the ICC error characterisation -/

/-- The named tag, when present, is a `CIEXYZ` payload (otherwise the source
`read_CIEXYZ_tag` panics). -/
def xyzTypedOrAbsent (p : IccProfile) (sig : TagSig) : Bool :=
  match readTag p sig with
  | none => true
  | some (.ciexyz _ _ _) => true
  | some _ => false

/-- The named tag, when present, is an MLU payload (otherwise `read_mlu_tag`
panics). -/
def mluTypedOrAbsent (p : IccProfile) (sig : TagSig) : Bool :=
  match readTag p sig with
  | none => true
  | some (.mlu _) => true
  | some _ => false

/-- The chromaticity tag, when present, is a `CIExyYTRIPLE` (otherwise the
source panics). -/
def chrmTypedOrAbsent (p : IccProfile) : Bool :=
  match readTag p .chromaticityTag with
  | none => true
  | some (.ciexyyTriple _ _ _) => true
  | some _ => false

/-- A chad tag is present but is not an xyY-triple 3×3 matrix. -/
def chadNotTriple (p : IccProfile) : Bool :=
  match readTag p .chromaticAdaptationTag with
  | none => false
  | some (.ciexyyTriple _ _ _) => false
  | some _ => true

/-- A chad tag is present as a 3×3 matrix whose inversion is singular. -/
def chadSingular (p : IccProfile) : Bool :=
  match readTag p .chromaticAdaptationTag with
  | some (.ciexyyTriple red green blue) =>
    (invertMatrix (chadMatrixOf red green blue)).isNone
  | _ => false

/-- No chromaticity tag is present. -/
def noChrm (p : IccProfile) : Bool := (readTag p .chromaticityTag).isNone

/-- At least one of the three colorant tags is missing. -/
def missingColorant (p : IccProfile) : Bool :=
  !(hasTag p .redColorantTag && hasTag p .greenColorantTag
      && hasTag p .blueColorantTag)

/-! ## The full bilinear sampler of `jpeg.rs` over `ℝ`

`to_linear` applies the profile's per-channel tone curves when an ICC color
space is present, and `powf(v, 2.2)` per channel otherwise; both are opaque
real functions of one channel value, abstracted here as the parameter
`eotf` applied per channel. -/

/-- The gamma-2.2 fallback of `UhdrJpeg::to_linear`. -/
noncomputable def gamma22 (x : ℝ) : ℝ := x ^ (11 / 5 : ℝ)

/-- Rust `f32::clamp`. -/
noncomputable def rclamp (x lo hi : ℝ) : ℝ := min (max x lo) hi

/-- The local `lerp` of `sample_bilinear`. -/
noncomputable def lerp (a b t : ℝ) : ℝ := a + (b - a) * t

/-- The local `bilinear` of `sample_bilinear`. -/
noncomputable def bilinearInterp (p00 p10 p01 p11 s t : ℝ) : ℝ :=
  lerp (lerp p00 p10 s) (lerp p01 p11 s) t

/-- Embeds `UhdrJpeg::get_pixel_as_rgb888_unorm_linear`: fetch, normalise by 255,
linearise per channel. -/
noncomputable def getPixelLinear (img : JpegImage) (eotf : ℝ → ℝ) (x y : ℕ) :
    Option (ℝ × ℝ × ℝ) :=
  (getPixelAsRgb888 img x y).map
    (fun p => (eotf ((p.1 : ℝ) / 255), eotf ((p.2.1 : ℝ) / 255),
               eotf ((p.2.2 : ℝ) / 255)))

/-- Embeds `UhdrJpeg::sample_bilinear` (the base addressing is the exact rational
computation embedded above; interpolation happens over `ℝ`). -/
noncomputable def sampleBilinear (img : JpegImage) (eotf : ℝ → ℝ) (u v : ℚ) :
    Option (ℝ × ℝ × ℝ) :=
  let x : ℚ := u * img.width
  let y : ℚ := v * img.height
  let baseX := sampleBaseX img.width u
  let baseY := sampleBaseY img.height v
  let p00 := (getPixelLinear img eotf baseX baseY).getD (0, 0, 0)
  let p01 := (getPixelLinear img eotf baseX (baseY + 1)).getD (0, 0, 0)
  let p10 := (getPixelLinear img eotf (baseX + 1) baseY).getD (0, 0, 0)
  let p11 := (getPixelLinear img eotf (baseX + 1) (baseY + 1)).getD (0, 0, 0)
  let s : ℝ := rclamp ((x : ℝ) - (baseX : ℕ)) 0 1
  let t : ℝ := rclamp ((y : ℝ) - (baseY : ℕ)) 0 1
  some (bilinearInterp p00.1 p10.1 p01.1 p11.1 s t,
        bilinearInterp p00.2.1 p10.2.1 p01.2.1 p11.2.1 s t,
        bilinearInterp p00.2.2 p10.2.2 p01.2.2 p11.2.2 s t)

/-! ## Concrete inputs used by the claim theorems -/

/-- The XMP packet `<rdf:Description HDRCapacityMax="3.0" />` after
`roxmltree` parsing: the located `Description` element. -/
def capacityOnlyDesc : XmlElem :=
  ⟨"Description", [("HDRCapacityMax", "3.0")], [], none⟩

/-- A `Description` whose `GainMapMin` appears as a child element holding a
single text value. -/
def childScalarDesc : XmlElem :=
  ⟨"Description", [], [⟨"GainMapMin", [], [], some "2.0"⟩], none⟩

/-- A `Description` whose `GainMapMin` appears as an attribute scalar. -/
def attrScalarDesc : XmlElem :=
  ⟨"Description", [("GainMapMin", "2.0")], [], none⟩

/-- A `Description` whose `GainMapMin` child holds a `Seq` of three `li`
values. -/
def seqTripleDesc : XmlElem :=
  ⟨"Description", [],
   [⟨"GainMapMin", [],
     [⟨"Seq", [],
       [⟨"li", [], [], some "1.0"⟩, ⟨"li", [], [], some "2.0"⟩,
        ⟨"li", [], [], some "3.0"⟩],
       none⟩],
     none⟩],
   none⟩

/-- A 2×2 RGB image whose only non-zero stored pixel is `(0, 1)`, the first
pixel of the second row. -/
def wrapImage : JpegImage :=
  ⟨2, 2, .rgb, [0, 0, 0, 0, 0, 0, 255, 255, 255, 0, 0, 0]⟩

/-- A well-formed little-endian classic TIFF: one IFD with two entries, the
first a `SHORT` count 1 (inline, 2 value bytes + 2 slot bytes `0xAB 0xCD`),
the second a `BYTE` count 4 (inline, exactly 4 bytes), then next-IFD 0. -/
def shortThenByteTiff : List ℕ :=
  [0x49, 0x49, 0x2A, 0x00, 8, 0, 0, 0,
   2, 0,
   1, 0, 3, 0, 1, 0, 0, 0, 7, 0, 0xAB, 0xCD,
   5, 0, 1, 0, 4, 0, 0, 0, 1, 2, 3, 4,
   0, 0, 0, 0]

/-- A little-endian classic TIFF whose single IFD entry carries field type
16 (`LONG8`). -/
def long8Tiff : List ℕ :=
  [0x49, 0x49, 0x2A, 0x00, 8, 0, 0, 0,
   1, 0,
   1, 0, 16, 0, 1, 0, 0, 0, 0, 0, 0, 0,
   0, 0, 0, 0]

/-- A little-endian classic TIFF whose single IFD's next-IFD offset points
back at that same IFD (offset 8). -/
def cyclicTiff : List ℕ :=
  [0x49, 0x49, 0x2A, 0x00, 8, 0, 0, 0,
   1, 0,
   0, 0, 1, 0, 4, 0, 0, 0, 0, 0, 0, 0,
   8, 0, 0, 0]

/-- The IFD parsed at offset 8 of `cyclicTiff`. -/
def cyclicIfd : TiffIfd :=
  ⟨[⟨0, .byte, 4, .byte [0, 0, 0, 0]⟩], some 8⟩

/-- An ICC profile holding only a media white-point tag (D50). -/
def wtptOnlyProfile : IccProfile :=
  [(.mediaWhitePointTag, .ciexyz (9642 / 10000) 1 (8249 / 10000))]

deriving instance DecidableEq for Except

/-- The ways `read_single_f32_value` can fail to produce a value for a field:
the field is absent (no attribute and no child element of that name), or the
form it appears in does not parse (attribute value unparsable, or child
element with missing or unparsable text). -/
def singleF32Unavailable (desc : XmlElem) (n : String) : Prop :=
  (∃ s, findAttr desc n = some s ∧ parseF32 s = none) ∨
  (findAttr desc n = none ∧ findChild desc n = none) ∨
  (findAttr desc n = none ∧
    ∃ c, findChild desc n = some c ∧
      (c.text = none ∨ ∃ t, c.text = some t ∧ parseF32 t = none))

/-! # Theorems -/

/-- Helper: `"2.0"` parses to the rational `2`. -/
theorem parseF32_two : parseF32 "2.0" = some 2 := by
  have h : parseF32 "2.0" = some ((1 : ℚ) * ((2 : ℕ) + ((0 : ℕ) : ℚ) / 10 ^ 1)) := by rfl
  rw [h]; norm_num

/-- Helper: `"3.0"` parses to the rational `3`. -/
theorem parseF32_three : parseF32 "3.0" = some 3 := by
  have h : parseF32 "3.0" = some ((1 : ℚ) * ((3 : ℕ) + ((0 : ℕ) : ℚ) / 10 ^ 1)) := by rfl
  rw [h]; norm_num

/-- Helper: `"1.0"` parses to the rational `1`. -/
theorem parseF32_one : parseF32 "1.0" = some 1 := by
  have h : parseF32 "1.0" = some ((1 : ℚ) * ((1 : ℕ) + ((0 : ℕ) : ℚ) / 10 ^ 1)) := by rfl
  rw [h]; norm_num

/-- Helper: once three values have been collected, `collectLis` adds nothing. -/
theorem collectLis_three (l : List XmlElem) (acc : List ℚ) (h : acc.length = 3) :
    collectLis l acc = acc := by
  cases l with
  | nil => simp [collectLis]
  | cons x r => simp [collectLis, h]

/-- C2: on a well-formed little-endian classic TIFF whose first IFD entry is
an inline `SHORT` of count 1 (value size 2 < 4), the parser resumes reading
immediately after the two value bytes instead of at the entry's 12-byte
boundary (cursor 20 instead of 22), so the following entry is misread and
`Tiff::from_reader` fails with an end-of-stream I/O error instead of
returning the stored value vectors (`SHORT [7]` and `BYTE [1,2,3,4]`). -/
theorem c2_inline_slot_misalignment :
    parseEntry shortThenByteTiff .littleEndian 4 10 =
      .ok (⟨1, .short, 1, .short [7]⟩, 20) ∧
    tiffFromReader shortThenByteTiff 1 = some (.error .eof) := by
  constructor
  · decide
  · decide

/-- C7 counterexample: field type 16 (`LONG8`) is accepted by
`TiffFieldType::from_u16`, after which `TiffFieldType::size` panics with
`unimplemented!()`; the parse outcome is a panic, not the `InvalidData`
error the claim requires. -/
theorem c7_long8_panics_counterexample :
    tiffFromReader long8Tiff 1 = some (.error .panicked) ∧
    TiffErr.panicked ≠ TiffErr.invalidData := by
  constructor
  · decide
  · decide

/-- C10: the IFD at offset 8 of `cyclicTiff` parses successfully and names
offset 8 as its own next-IFD offset, and for every amount of fuel the
IFD-following loop of `Tiff::from_reader` fails to finish: the function
never returns on this input.  Conversely, the loop only terminates when the
next-IFD-offset chain reaches 0 after finitely many IFDs, which this input's
chain never does. -/
theorem c10_cyclic_ifd_nontermination :
    TiffIfd.new cyclicTiff .littleEndian 42 8 = .ok (cyclicIfd, 26) ∧
    cyclicIfd.nextIfdOffset = some 8 ∧
    ∀ fuel, tiffFromReader cyclicTiff fuel = none := by
  refine ⟨by decide, by decide, ?_⟩
  have h8 : TiffIfd.new cyclicTiff .littleEndian 42 8 = .ok (cyclicIfd, 26) := by decide
  have hnext : cyclicIfd.nextIfdOffset = some 8 := by decide
  have hloop : ∀ fuel, ifdLoop cyclicTiff .littleEndian 42 (some 8) fuel = none := by
    intro fuel
    induction fuel with
    | zero => rfl
    | succ n ih =>
      simp only [ifdLoop, h8, hnext, ih]
  intro fuel
  have hh : TiffHeader.new cyclicTiff = .ok (⟨.littleEndian, 42, 8⟩, 8) := by decide
  simp only [tiffFromReader, hh, hloop]

/-- C4 counterexample: on the 2×2 RGB image `wrapImage`, the neighbour fetch
at `(2, 0)` — `x = w` on the first (not last) row — returns the stored pixel
at the start of the second row, and sampling at `(u, v) = (4/5, 3/10)`
therefore yields `6/25` per channel instead of the `0` that a
zero-contribution out-of-bounds neighbour would give. -/
theorem c4_row_wrap_counterexample :
    wrapImage.width = 2 ∧ wrapImage.height = 2 ∧
    getPixelAsRgb888 wrapImage 2 0 = some (255, 255, 255) ∧
    sampleBilinear wrapImage gamma22 (4 / 5) (3 / 10) =
      some (6 / 25, 6 / 25, 6 / 25) := by
  refine ⟨rfl, rfl, by decide, ?_⟩
  have hbx : sampleBaseX 2 (4 / 5) = 1 := by
    norm_num [sampleBaseX, baseXRaw, rustFract, rustTrunc, f32ToUsize]
  have hby : sampleBaseY 2 (3 / 10) = 0 := by
    norm_num [sampleBaseY, baseYRaw, rustFract, rustTrunc, f32ToUsize]
  have f00 : getPixelAsRgb888 wrapImage 1 0 = some (0, 0, 0) := by decide
  have f01 : getPixelAsRgb888 wrapImage 1 1 = some (0, 0, 0) := by decide
  have f10 : getPixelAsRgb888 wrapImage 2 0 = some (255, 255, 255) := by decide
  have f11 : getPixelAsRgb888 wrapImage 2 1 = none := by decide
  have hw : wrapImage.width = 2 := rfl
  have hh : wrapImage.height = 2 := rfl
  simp only [sampleBilinear, hw, hh, hbx, hby, getPixelLinear, f00, f01, f10, f11,
    Option.map_some, Option.map_none, Option.getD_some, Option.getD_none,
    gamma22, rclamp, lerp, bilinearInterp]
  push_cast
  norm_num [Real.zero_rpow, Real.one_rpow]

/-- C4 amended: for an RGB image a fetch returns `None` (contributing zero)
exactly when its linear pixel index reaches past the end of the pixel
buffer; and a fetch at `x = w` on row `y` is literally the fetch at
`(0, y + 1)`, the first pixel of the following row. -/
theorem c4_amended_linear_index_bound :
    (∀ (img : JpegImage) (x y : ℕ), img.colorSpace = .rgb →
      (getPixelAsRgb888 img x y = none ↔
        img.pixels.length ≤ (y * img.width + x) * 3)) ∧
    (∀ (img : JpegImage) (y : ℕ), img.colorSpace = .rgb →
      getPixelAsRgb888 img img.width y = getPixelAsRgb888 img 0 (y + 1)) := by
  constructor
  · intro img x y hcs
    simp [getPixelAsRgb888, hcs, Nat.not_lt]
  · intro img y hcs
    have hidx : y * img.width + img.width = (y + 1) * img.width + 0 := by ring
    simp [getPixelAsRgb888, hcs, hidx]

/-- C4 amended, witness at concrete inputs. -/
theorem c4_amended_linear_index_bound_witness :
    (getPixelAsRgb888 wrapImage 5 5 = none ↔
      wrapImage.pixels.length ≤ (5 * wrapImage.width + 5) * 3) ∧
    getPixelAsRgb888 wrapImage wrapImage.width 0 = getPixelAsRgb888 wrapImage 0 1 :=
  ⟨c4_amended_linear_index_bound.1 wrapImage 5 5 rfl,
   c4_amended_linear_index_bound.2 wrapImage 0 rfl⟩

/-- C6 counterexample: a triple-valued field appearing as a child element
containing a single parsable text value (`<GainMapMin>2.0</GainMapMin>`) is
not parsed at all — `read_rgb_f32_value` yields `None`, not the replicated
scalar the claim requires. -/
theorem c6_child_scalar_counterexample :
    parseF32 "2.0" = some 2 ∧
    readRgbF32Value childScalarDesc "GainMapMin" = none := by
  refine ⟨parseF32_two, ?_⟩
  rfl

/-- C6 amended: for a triple-valued field, a scalar is parsed and replicated
across the three channels only in attribute form; in child-element form the
value is handed to the `Seq` reader, so a child with a lone text value
yields nothing, while a `Seq` whose first three `li` children parse yields
those three component values. -/
theorem c6_amended_triple_forms :
    (∀ (desc : XmlElem) (n s : String) (q : ℚ),
      findAttr desc n = some s → parseF32 s = some q →
      readRgbF32Value desc n = some (q, q, q)) ∧
    (∀ (desc child : XmlElem) (n : String),
      findAttr desc n = none → findChild desc n = some child →
      readRgbF32Value desc n = readSeqRgbValue child) ∧
    (∀ (child seq l1 l2 l3 : XmlElem) (rest : List XmlElem) (q1 q2 q3 : ℚ),
      findChild child "Seq" = some seq →
      seq.children.filter (fun c => c.name == "li") = l1 :: l2 :: l3 :: rest →
      l1.text.bind parseF32 = some q1 →
      l2.text.bind parseF32 = some q2 →
      l3.text.bind parseF32 = some q3 →
      readSeqRgbValue child = some (q1, q2, q3)) := by
  refine ⟨?_, ?_, ?_⟩
  · intro desc n s q ha hp
    simp [readRgbF32Value, ha, hp]
  · intro desc child n ha hc
    simp [readRgbF32Value, ha, hc]
  · intro child seq l1 l2 l3 rest q1 q2 q3 hseq hfil h1 h2 h3
    simp only [readSeqRgbValue, hseq, hfil, collectLis, h1, h2, h3]
    norm_num [collectLis_three]

/-- C6 amended, witness at concrete inputs. -/
theorem c6_amended_triple_forms_witness :
    readRgbF32Value attrScalarDesc "GainMapMin" = some (2, 2, 2) ∧
    readSeqRgbValue ⟨"GainMapMin", [],
      [⟨"Seq", [],
        [⟨"li", [], [], some "1.0"⟩, ⟨"li", [], [], some "2.0"⟩,
         ⟨"li", [], [], some "3.0"⟩], none⟩], none⟩ = some (1, 2, 3) :=
  ⟨c6_amended_triple_forms.1 attrScalarDesc "GainMapMin" "2.0" 2 rfl parseF32_two,
   c6_amended_triple_forms.2.2 _ _ _ _ _ [] 1 2 3 rfl rfl
     (by simp [parseF32_one]) (by simp [parseF32_two]) (by simp [parseF32_three])⟩

/-- Helper: `read_single_f32_value` yields nothing exactly when the field is
absent or unparsable in the form it appears in. -/
theorem readSingleF32Value_none_iff (desc : XmlElem) (n : String) :
    readSingleF32Value desc n = none ↔ singleF32Unavailable desc n := by
  unfold readSingleF32Value singleF32Unavailable
  rcases ha : findAttr desc n with _ | s
  · rcases hc : findChild desc n with _ | c
    · simp [hc]
    · rcases ht : c.text with _ | t
      · simp [hc, ht]
      · rcases hp : parseF32 t with _ | q <;> simp [hc, ht, hp]
  · rcases hp : parseF32 s with _ | q <;> simp [hp]

/-- C5: `new_from_xmp_bytes` (given a well-formed packet with a
`Description` element) returns `None` exactly when `HDRCapacityMax` is
absent or unparsable, and on `<rdf:Description HDRCapacityMax="3.0" />` it
returns the record with `hdr_capacity_max = 3` and every other field at its
default (`base_rendition_is_hdr = false`, zero gain map bounds, unit gamma,
`offset_sdr = offset_hdr = 0.015625 = 1/64`, `hdr_capacity_min = 0`). -/
theorem c5_capacity_required_defaults :
    (∀ desc : XmlElem,
      newFromXmp desc = none ↔ singleF32Unavailable desc "HDRCapacityMax") ∧
    newFromXmp capacityOnlyDesc =
      some ⟨false, (0, 0, 0), (0, 0, 0), (1, 1, 1), (1 / 64, 1 / 64, 1 / 64),
        (1 / 64, 1 / 64, 1 / 64), 0, 3⟩ := by
  constructor
  · intro desc
    have hstruct :
        newFromXmp desc = none ↔ readSingleF32Value desc "HDRCapacityMax" = none := by
      unfold newFromXmp
      rcases h : readSingleF32Value desc "HDRCapacityMax" with _ | q <;> simp
    rw [hstruct]
    exact readSingleF32Value_none_iff desc _
  · have hmax : readSingleF32Value capacityOnlyDesc "HDRCapacityMax" = some 3 := by
      have h : readSingleF32Value capacityOnlyDesc "HDRCapacityMax" = parseF32 "3.0" := rfl
      rw [h, parseF32_three]
    have hb : readSingleBoolValue capacityOnlyDesc "BaseRenditionIsHDR" = none := rfl
    have h1 : readRgbF32Value capacityOnlyDesc "GainMapMin" = none := rfl
    have h2 : readRgbF32Value capacityOnlyDesc "GainMapMax" = none := rfl
    have h3 : readRgbF32Value capacityOnlyDesc "Gamma" = none := rfl
    have h4 : readRgbF32Value capacityOnlyDesc "OffsetSDR" = none := rfl
    have h5 : readRgbF32Value capacityOnlyDesc "OffsetHDR" = none := rfl
    have h6 : readSingleF32Value capacityOnlyDesc "HDRCapacityMin" = none := rfl
    simp [newFromXmp, hmax, hb, h1, h2, h3, h4, h5, h6]

/-- C9: with `gain_map_min = gain_map_max = 0` and
`offset_sdr = offset_hdr = 0`, `compute_boosted` is the identity on the SDR
pixel — for every gain-map sample in `[0,1]^3`, positive per-channel gamma,
and arbitrary weight factor. -/
theorem c9_zero_gain_identity (sdr g gamma : FloatPixel) (wf : ℝ)
    (hg0r : 0 ≤ g.r) (hg1r : g.r ≤ 1) (hg0g : 0 ≤ g.g) (hg1g : g.g ≤ 1)
    (hg0b : 0 ≤ g.b) (hg1b : g.b ≤ 1)
    (hgr : 0 < gamma.r) (hgg : 0 < gamma.g) (hgb : 0 < gamma.b) :
    computeBoosted
      ⟨FloatPixel.rcp gamma, FloatPixel.zero, FloatPixel.zero,
        FloatPixel.zero, FloatPixel.zero, wf⟩ sdr g = sdr := by
  obtain ⟨sr, sg, sb⟩ := sdr
  simp [computeBoosted, FloatPixel.zero, FloatPixel.one, FloatPixel.add,
    FloatPixel.sub, FloatPixel.mul, FloatPixel.smul, FloatPixel.exp2,
    FloatPixel.powf, FloatPixel.rcp, Real.rpow_zero]

/-- C9, witness at concrete inputs. -/
theorem c9_zero_gain_identity_witness :
    computeBoosted
      ⟨FloatPixel.rcp ⟨1, 1, 1⟩, FloatPixel.zero, FloatPixel.zero,
        FloatPixel.zero, FloatPixel.zero, 5⟩ ⟨1, 2, 3⟩ ⟨0, 1 / 2, 1⟩ = ⟨1, 2, 3⟩ :=
  c9_zero_gain_identity ⟨1, 2, 3⟩ ⟨0, 1 / 2, 1⟩ ⟨1, 1, 1⟩ 5
    (by norm_num) (by norm_num) (by norm_num) (by norm_num) (by norm_num)
    (by norm_num) (by norm_num) (by norm_num) (by norm_num)

/-- Helper: the saturating cast-and-clamp of an integer-valued `f32` agrees
with clamping over `ℤ`. -/
theorem f32ToUsize_intCast_min (w : ℕ) (n : ℤ) (hnw : n ≤ (w : ℤ))
    (hw1 : 1 ≤ w) (hw2 : w ≤ 2 ^ 64 - 1) :
    min (f32ToUsize (n : ℚ)) (w - 1) = (min (max n 0) ((w : ℤ) - 1)).toNat := by
  unfold f32ToUsize
  by_cases hq : (n : ℚ) ≤ 0
  · rw [if_pos hq]
    have hn : n ≤ 0 := by exact_mod_cast hq
    omega
  · rw [if_neg hq, Int.floor_intCast]
    have hn : 0 < n := by exact_mod_cast not_le.mp hq
    omega

/-- Helper: the `floor(x) - 1 / floor(x)` branch computation of
`sample_bilinear` (the `base_x` form), after the saturating cast and clamp,
equals the specification's clamped base rule. -/
theorem baseX_clamped_eq_spec (w : ℕ) (x : ℚ) (hw1 : 1 ≤ w)
    (hw2 : w ≤ 2 ^ 64 - 1) (hx0 : 0 ≤ x) (hxw : x ≤ w) :
    min (f32ToUsize (if rustFract x < 1 / 2 then (⌊x⌋ : ℚ) - 1 else (⌊x⌋ : ℚ)))
        (w - 1) = specBase w x := by
  have hfr : rustFract x = x - ⌊x⌋ := by
    unfold rustFract rustTrunc
    rw [if_pos hx0]
  have hnw : ⌊x⌋ ≤ (w : ℤ) := by
    have := Int.floor_le_floor hxw
    rwa [Int.floor_natCast] at this
  unfold specBase
  rw [hfr]
  by_cases hlt : x - (⌊x⌋ : ℚ) < 1 / 2
  · rw [if_pos hlt, if_pos hlt]
    rw [show ((⌊x⌋ : ℚ) - 1) = ((⌊x⌋ - 1 : ℤ) : ℚ) from by push_cast; ring]
    exact f32ToUsize_intCast_min w (⌊x⌋ - 1) (by omega) hw1 hw2
  · rw [if_neg hlt, if_neg hlt]
    exact f32ToUsize_intCast_min w ⌊x⌋ hnw hw1 hw2

/-- Helper: the asymmetric `y - 1.0 / floor(y)` branch computation of
`sample_bilinear` (the `base_y` form), after the saturating cast and clamp,
also equals the specification's clamped base rule. -/
theorem baseY_clamped_eq_spec (h : ℕ) (y : ℚ) (hh1 : 1 ≤ h)
    (hh2 : h ≤ 2 ^ 64 - 1) (hy0 : 0 ≤ y) (hyh : y ≤ h) :
    min (f32ToUsize (if rustFract y < 1 / 2 then y - 1 else (⌊y⌋ : ℚ)))
        (h - 1) = specBase h y := by
  have hfr : rustFract y = y - ⌊y⌋ := by
    unfold rustFract rustTrunc
    rw [if_pos hy0]
  have hnw : ⌊y⌋ ≤ (h : ℤ) := by
    have := Int.floor_le_floor hyh
    rwa [Int.floor_natCast] at this
  have hn0 : 0 ≤ ⌊y⌋ := Int.floor_nonneg.mpr hy0
  unfold specBase
  rw [hfr]
  by_cases hlt : y - (⌊y⌋ : ℚ) < 1 / 2
  · rw [if_pos hlt, if_pos hlt]
    unfold f32ToUsize
    by_cases hy1 : y - 1 ≤ 0
    · rw [if_pos hy1]
      have hfl1 : ⌊y⌋ ≤ 1 := by
        have : y ≤ ((1 : ℤ) : ℚ) := by push_cast; linarith
        have := Int.floor_le_floor this
        simpa using this
      omega
    · rw [if_neg hy1]
      have hfl : ⌊y - 1⌋ = ⌊y⌋ - 1 := by
        rw [show (y - 1 : ℚ) = y - ((1 : ℤ) : ℚ) from by push_cast; ring,
          Int.floor_sub_int]
      have h1n : 1 ≤ ⌊y⌋ := by
        rw [Int.le_floor]
        push_cast
        linarith
      rw [hfl]
      omega
  · rw [if_neg hlt, if_neg hlt]
    exact f32ToUsize_intCast_min h ⌊y⌋ hnw hh1 hh2

/-- C1: for every image extent `w, h ≥ 1` (of `usize` magnitude) and every
sample coordinate `(u, v) ∈ [0,1]²`, `sample_bilinear`'s clamped base texel
indices equal the specified rule: `floor(x) - 1` when `fract(x) < 0.5`, else
`floor(x)`, clamped into `[0, w-1]` — and likewise for `y`.  (The code's
`y - 1.0` branch differs from `floor(y) - 1.0` only before the saturating
`as usize` cast; the resulting index is identical.) -/
theorem c1_bilinear_base_rule (w h : ℕ) (u v : ℚ)
    (hw1 : 1 ≤ w) (hw2 : w ≤ 2 ^ 64 - 1) (hh1 : 1 ≤ h) (hh2 : h ≤ 2 ^ 64 - 1)
    (hu0 : 0 ≤ u) (hu1 : u ≤ 1) (hv0 : 0 ≤ v) (hv1 : v ≤ 1) :
    sampleBaseX w u = specBase w (u * w) ∧
    sampleBaseY h v = specBase h (v * h) := by
  constructor
  · have hx0 : 0 ≤ u * (w : ℚ) := mul_nonneg hu0 (by positivity)
    have hxw : u * (w : ℚ) ≤ w := by
      calc u * (w : ℚ) ≤ 1 * w := by
            apply mul_le_mul_of_nonneg_right hu1 (by positivity)
        _ = w := one_mul _
    simpa only [sampleBaseX, baseXRaw] using
      baseX_clamped_eq_spec w (u * w) hw1 hw2 hx0 hxw
  · have hy0 : 0 ≤ v * (h : ℚ) := mul_nonneg hv0 (by positivity)
    have hyh : v * (h : ℚ) ≤ h := by
      calc v * (h : ℚ) ≤ 1 * h := by
            apply mul_le_mul_of_nonneg_right hv1 (by positivity)
        _ = h := one_mul _
    simpa only [sampleBaseY, baseYRaw] using
      baseY_clamped_eq_spec h (v * h) hh1 hh2 hy0 hyh

/-- C1, witness at concrete inputs. -/
theorem c1_bilinear_base_rule_witness :
    sampleBaseX 2 (3 / 4) = specBase 2 (3 / 4 * 2) ∧
    sampleBaseY 2 (1 / 4) = specBase 2 (1 / 4 * 2) :=
  c1_bilinear_base_rule 2 2 (3 / 4) (1 / 4)
    (by norm_num) (by norm_num) (by norm_num) (by norm_num)
    (by norm_num) (by norm_num) (by norm_num) (by norm_num)

/-- C8 counterexample: `st2084_oetf(0)` is not `0`: the PQ formula at `0`
evaluates to `(c1)^m2 ≈ 7.3e-7`, which is positive. -/
theorem c8_pq_zero_counterexample : st2084Oetf 0 ≠ 0 := by
  have h0 : st2084Oetf 0 = (3424 / 4096 : ℝ) ^ (2523 / 4096 * 128 : ℝ) := by
    simp only [st2084Oetf, abs_zero]
    rw [Real.zero_rpow (by norm_num)]
    norm_num
  rw [h0]
  positivity

/-- C8 amended: `st2084_oetf(0)` is positive but below `1e-4` (approximately
0 rather than exactly 0), `st2084_oetf(1) = 1` exactly (so certainly within
`1e-4` of 1), and the function is strictly monotonically increasing on
`[0, 1]`. -/
theorem c8_pq_amended :
    st2084Oetf 0 < 1 / 10000 ∧ st2084Oetf 1 = 1 ∧
    StrictMonoOn st2084Oetf (Set.Icc (0 : ℝ) 1) := by
  refine ⟨?_, ?_, ?_⟩
  · have h0 : st2084Oetf 0 = (3424 / 4096 : ℝ) ^ (2523 / 4096 * 128 : ℝ) := by
      simp only [st2084Oetf, abs_zero]
      rw [Real.zero_rpow (by norm_num)]
      norm_num
    rw [h0]
    calc (3424 / 4096 : ℝ) ^ (2523 / 4096 * 128 : ℝ)
        ≤ (3424 / 4096 : ℝ) ^ ((78 : ℕ) : ℝ) := by
          apply Real.rpow_le_rpow_of_exponent_ge (by norm_num) (by norm_num)
            (by norm_num)
      _ = (3424 / 4096 : ℝ) ^ (78 : ℕ) := by rw [Real.rpow_natCast]
      _ < 1 / 10000 := by norm_num
  · simp only [st2084Oetf, abs_one]
    rw [Real.one_rpow]
    rw [show ((3424 / 4096 + 2413 / 4096 * 32 * 1) /
        (1 + 2392 / 4096 * 32 * 1) : ℝ) = 1 from by norm_num]
    exact Real.one_rpow _
  · intro a ha b hb hab
    simp only [Set.mem_Icc] at ha hb
    simp only [st2084Oetf]
    rw [abs_of_nonneg ha.1, abs_of_nonneg hb.1]
    have hm1 : (0 : ℝ) < 2610 / 16384 := by norm_num
    have hta : a ^ (2610 / 16384 : ℝ) < b ^ (2610 / 16384 : ℝ) :=
      Real.rpow_lt_rpow ha.1 hab hm1
    have hta0 : (0 : ℝ) ≤ a ^ (2610 / 16384 : ℝ) := Real.rpow_nonneg ha.1 _
    have htb0 : (0 : ℝ) ≤ b ^ (2610 / 16384 : ℝ) := le_trans hta0 hta.le
    have hdp : (0 : ℝ) < 1 + 2392 / 4096 * 32 * (a ^ (2610 / 16384 : ℝ)) := by
      nlinarith
    have hdq : (0 : ℝ) < 1 + 2392 / 4096 * 32 * (b ^ (2610 / 16384 : ℝ)) := by
      nlinarith
    have hfrac :
        (3424 / 4096 + 2413 / 4096 * 32 * (a ^ (2610 / 16384 : ℝ))) /
            (1 + 2392 / 4096 * 32 * (a ^ (2610 / 16384 : ℝ))) <
          (3424 / 4096 + 2413 / 4096 * 32 * (b ^ (2610 / 16384 : ℝ))) /
            (1 + 2392 / 4096 * 32 * (b ^ (2610 / 16384 : ℝ))) := by
      rw [div_lt_div_iff hdp hdq]
      nlinarith
    have hfrac0 :
        (0 : ℝ) ≤ (3424 / 4096 + 2413 / 4096 * 32 * (a ^ (2610 / 16384 : ℝ))) /
          (1 + 2392 / 4096 * 32 * (a ^ (2610 / 16384 : ℝ))) := by
      apply div_nonneg (by nlinarith) hdp.le
    exact Real.rpow_lt_rpow hfrac0 hfrac (by norm_num)

/-- Helper: a well-shaped (or absent) MLU tag never panics in
`read_mlu_tag`. -/
theorem readMluTag_ok (p : IccProfile) (sig : TagSig)
    (h : mluTypedOrAbsent p sig = true) : ∃ o, readMluTag p sig = .ok o := by
  unfold mluTypedOrAbsent at h
  unfold readMluTag
  rcases ht : readTag p sig with _ | t
  · exact ⟨none, rfl⟩
  · cases t <;> simp [ht] at h ⊢

/-- Helper: a well-shaped (or absent) XYZ tag never panics in
`read_CIEXYZ_tag`, and its presence matches `has_tag`. -/
theorem readCIEXYZTag_ok (p : IccProfile) (sig : TagSig)
    (h : xyzTypedOrAbsent p sig = true) :
    ∃ o, readCIEXYZTag p sig = .ok o ∧ hasTag p sig = o.isSome := by
  unfold xyzTypedOrAbsent at h
  unfold readCIEXYZTag hasTag
  rcases ht : readTag p sig with _ | t
  · exact ⟨none, rfl, rfl⟩
  · cases t <;> simp [ht] at h ⊢

/-- Helper: same for `read_CIEXYZ_tag_as_CIExyY`. -/
theorem readColorant_ok (p : IccProfile) (sig : TagSig)
    (h : xyzTypedOrAbsent p sig = true) :
    ∃ o, readCIEXYZTagAsCIExyY p sig = .ok o ∧ hasTag p sig = o.isSome := by
  obtain ⟨o, ho, hh⟩ := readCIEXYZTag_ok p sig h
  unfold readCIEXYZTagAsCIExyY
  rw [ho]
  rcases o with _ | v
  · exact ⟨none, rfl, hh⟩
  · exact ⟨some (xyz2xyY v), rfl, hh⟩

/-- Helper: characterisation of the `None` results of
`ColorGamut::from_icc_profile` for profiles whose present wtpt, chrm and
colorant tags carry the expected payload shapes. -/
theorem gamutFromIccProfile_none_iff (p : IccProfile)
    (hw : xyzTypedOrAbsent p .mediaWhitePointTag = true)
    (hchrm : chrmTypedOrAbsent p = true)
    (hr : xyzTypedOrAbsent p .redColorantTag = true)
    (hg : xyzTypedOrAbsent p .greenColorantTag = true)
    (hb : xyzTypedOrAbsent p .blueColorantTag = true) :
    ColorGamut.fromIccProfile p = .ok none ↔
      (hasTag p .mediaWhitePointTag = false ∨ chadNotTriple p = true ∨
       chadSingular p = true ∨
       (noChrm p = true ∧ missingColorant p = true)) := by
  obtain ⟨ow, hwt, hwho⟩ := readCIEXYZTag_ok p .mediaWhitePointTag hw
  obtain ⟨orr, hrt, hrho⟩ := readColorant_ok p .redColorantTag hr
  obtain ⟨og, hgt, hgho⟩ := readColorant_ok p .greenColorantTag hg
  obtain ⟨ob, hbt, hbho⟩ := readColorant_ok p .blueColorantTag hb
  unfold chrmTypedOrAbsent at hchrm
  unfold ColorGamut.fromIccProfile chadNotTriple chadSingular noChrm missingColorant
  rcases hchad : readTag p .chromaticAdaptationTag with _ | tc
  case none =>
    simp only [hwt]
    rcases ow with _ | w
    · simp [hwho]
    · simp only [Option.isSome_some] at hwho
      rcases hch : readTag p .chromaticityTag with _ | tch
      · simp only [hrt]
        rcases orr with _ | rv
        · simp [hch, hwho, hrho, hgt, hbt]
        · simp only [hgt]
          rcases og with _ | gv
          · simp [hch, hwho, hrho, hgho, hbt]
          · simp only [hbt]
            rcases ob with _ | bv
            · simp [hch, hwho, hrho, hgho, hbho]
            · simp [hch, hwho, hrho, hgho, hbho]
      · cases tch <;> simp [hch, hwho] <;> simp at hchrm
  case some =>
    cases tc with
    | ciexyyTriple r g b =>
      rcases hinv : invertMatrix (chadMatrixOf r g b) with _ | m
      · simp [hinv, hwho]
      · simp only [hwt]
        rcases ow with _ | w
        · simp [hinv, hwho]
        · simp only [Option.isSome_some] at hwho
          rcases hch : readTag p .chromaticityTag with _ | tch
          · simp only [hrt]
            rcases orr with _ | rv
            · simp [hch, hinv, hwho, hrho, hgt, hbt]
            · simp only [hgt]
              rcases og with _ | gv
              · simp [hch, hinv, hwho, hrho, hgho, hbt]
              · simp only [hbt]
                rcases ob with _ | bv
                · simp [hch, hinv, hwho, hrho, hgho, hbho]
                · simp [hch, hinv, hwho, hrho, hgho, hbho]
          · cases tch <;> simp [hch, hinv, hwho] <;> simp at hchrm
    | mlu s => simp [hwho]
    | ciexyz X Y Z => simp [hwho]
    | toneCurve c => simp [hwho]
    | otherTag => simp [hwho]

/-- Helper: `IccColorSpace::from_icc_profile` returns `None` exactly when
`ColorGamut::from_icc_profile` does (the MLU reads never produce `None` and
the transfer-characteristics read always succeeds). -/
theorem iccFromIccProfile_none_iff_gamut (p : IccProfile)
    (hd : mluTypedOrAbsent p .profileDescriptionTag = true)
    (hc : mluTypedOrAbsent p .copyrightTag = true) :
    IccColorSpace.fromIccProfile p = .ok none ↔
      ColorGamut.fromIccProfile p = .ok none := by
  obtain ⟨o1, h1⟩ := readMluTag_ok p .profileDescriptionTag hd
  obtain ⟨o2, h2⟩ := readMluTag_ok p .copyrightTag hc
  unfold IccColorSpace.fromIccProfile
  rw [h1, h2]
  rcases h3 : ColorGamut.fromIccProfile p with er | og
  · simp
  · rcases og with _ | gv <;> simp [TransferCharacteristics.fromIccProfile]

/-- C3 counterexample: a profile with a well-formed media white-point tag,
no chad tag, and tone curves absent (all channels identity) is `None`-ed by
`IccColorSpace::from_icc_profile` because it carries neither a chromaticity
tag nor the three colorant tags — a condition the claim says cannot cause a
`None` result. -/
theorem c3_missing_colorant_counterexample :
    IccColorSpace.fromIccProfile wtptOnlyProfile = .ok none ∧
    hasTag wtptOnlyProfile .mediaWhitePointTag = true ∧
    hasTag wtptOnlyProfile .chromaticAdaptationTag = false ∧
    TransferCharacteristics.fromIccProfile wtptOnlyProfile =
      some ⟨none, none, none⟩ := by
  refine ⟨by decide, by decide, by decide, by decide⟩

/-- C3 amended: for profiles whose present wtpt / chromaticity / colorant /
MLU tags carry their expected payload shapes (so no reader panics),
`IccColorSpace::from_icc_profile` returns `None` exactly when the media
white point is missing, a chad tag is present but not a 3×3 xyY-triple, the
chad matrix is singular, or no chromaticity tag is present and at least one
colorant tag is missing; tone-curve tags never influence the outcome. -/
theorem c3_amended_none_conditions (p : IccProfile)
    (hw : xyzTypedOrAbsent p .mediaWhitePointTag = true)
    (hchrm : chrmTypedOrAbsent p = true)
    (hr : xyzTypedOrAbsent p .redColorantTag = true)
    (hg : xyzTypedOrAbsent p .greenColorantTag = true)
    (hb : xyzTypedOrAbsent p .blueColorantTag = true)
    (hd : mluTypedOrAbsent p .profileDescriptionTag = true)
    (hc : mluTypedOrAbsent p .copyrightTag = true) :
    IccColorSpace.fromIccProfile p = .ok none ↔
      (hasTag p .mediaWhitePointTag = false ∨ chadNotTriple p = true ∨
       chadSingular p = true ∨
       (noChrm p = true ∧ missingColorant p = true)) :=
  (iccFromIccProfile_none_iff_gamut p hd hc).trans
    (gamutFromIccProfile_none_iff p hw hchrm hr hg hb)

/-- C3 amended, witness at a concrete profile. -/
theorem c3_amended_none_conditions_witness :
    IccColorSpace.fromIccProfile wtptOnlyProfile = .ok none ↔
      (hasTag wtptOnlyProfile .mediaWhitePointTag = false ∨
       chadNotTriple wtptOnlyProfile = true ∨
       chadSingular wtptOnlyProfile = true ∨
       (noChrm wtptOnlyProfile = true ∧ missingColorant wtptOnlyProfile = true)) :=
  c3_amended_none_conditions wtptOnlyProfile (by decide) (by decide) (by decide)
    (by decide) (by decide) (by decide) (by decide)

/-- Helper: `bind` on a successful `Except` computation. -/
theorem exceptBind_ok {ε α β : Type} (a : α) (f : α → Except ε β) :
    (Except.ok a >>= f) = f a := rfl

/-- Helper: `bind` on a failed `Except` computation. -/
theorem exceptBind_error {ε α β : Type} (e : ε) (f : α → Except ε β) :
    ((Except.error e : Except ε α) >>= f) = .error e := rfl

/-- Helper: invalid magic bytes make `TiffHeader::new` fail with
`InvalidData`. -/
theorem headerNew_magic_invalid (bytes : List ℕ) (m p : ℕ)
    (h : readU16 bytes .littleEndian 0 = .ok (m, p))
    (h1 : m ≠ 0x4949) (h2 : m ≠ 0x4D4D) :
    TiffHeader.new bytes = .error .invalidData := by
  unfold TiffHeader.new
  rw [h, exceptBind_ok]
  simp [h1, h2]

/-- Helper: a version below 42 makes `TiffHeader::new` fail with
`InvalidData`. -/
theorem headerNew_version_invalid (bytes : List ℕ) (m p1 ver p2 : ℕ)
    (h : readU16 bytes .littleEndian 0 = .ok (m, p1))
    (hm : m = 0x4949 ∨ m = 0x4D4D)
    (hv : readU16 bytes (if m = 0x4949 then .littleEndian else .bigEndian) p1 =
      .ok (ver, p2))
    (hlt : ver < 42) :
    TiffHeader.new bytes = .error .invalidData := by
  unfold TiffHeader.new
  rw [h, exceptBind_ok]
  rcases hm with hm | hm <;> subst hm <;> simp at hv ⊢ <;>
    rw [hv, exceptBind_ok] <;> simp [hlt]

/-- Helper: a version other than 42/43 makes `TiffIfd::new` fail with
`InvalidData` (no value/offset slot size). -/
theorem ifdNew_version_invalid (bytes : List ℕ) (e : Endianness) (ver pos : ℕ)
    (h42 : ver ≠ 42) (h43 : ver ≠ 43) :
    TiffIfd.new bytes e ver pos = .error .invalidData := by
  unfold TiffIfd.new
  dsimp only
  split
  · omega
  · omega
  · rw [exceptBind_error]

/-- Helper: an entry count of 0 makes `TiffIfd::new` fail with
`InvalidData`. -/
theorem ifdNew_entryCount_invalid (bytes : List ℕ) (e : Endianness)
    (ver pos p1 : ℕ) (hver : ver = 42 ∨ ver = 43)
    (hc : readU16 bytes e pos = .ok (0, p1)) :
    TiffIfd.new bytes e ver pos = .error .invalidData := by
  rcases hver with hv | hv <;> subst hv <;>
    · unfold TiffIfd.new
      dsimp only
      simp only [hc, exceptBind_ok]
      simp

/-- Helper: a field-type code outside the enum makes the entry parse fail
with `InvalidData`. -/
theorem parseEntry_fieldType_invalid (bytes : List ℕ) (e : Endianness)
    (vos pos t p1 ftRaw p2 cnt p3 : ℕ)
    (h1 : readU16 bytes e pos = .ok (t, p1))
    (h2 : readU16 bytes e p1 = .ok (ftRaw, p2))
    (h3 : readU32 bytes e p2 = .ok (cnt, p3))
    (hft : TiffFieldType.fromU16 ftRaw = none) :
    parseEntry bytes e vos pos = .error .invalidData := by
  unfold parseEntry
  rw [h1, exceptBind_ok]
  dsimp only
  rw [h2, exceptBind_ok]
  dsimp only
  rw [h3, exceptBind_ok]
  dsimp only
  rw [hft]

/-- Helper: field types 16 (`LONG8`) and 17 (`SLONG8`) make the entry parse
panic in `TiffFieldType::size` rather than return `InvalidData`. -/
theorem parseEntry_long8_panics (bytes : List ℕ) (e : Endianness)
    (vos pos t p1 ftRaw p2 cnt p3 : ℕ)
    (h1 : readU16 bytes e pos = .ok (t, p1))
    (h2 : readU16 bytes e p1 = .ok (ftRaw, p2))
    (h3 : readU32 bytes e p2 = .ok (cnt, p3))
    (hft : ftRaw = 16 ∨ ftRaw = 17) :
    parseEntry bytes e vos pos = .error .panicked := by
  unfold parseEntry
  rw [h1, exceptBind_ok]
  dsimp only
  rw [h2, exceptBind_ok]
  dsimp only
  rw [h3, exceptBind_ok]
  dsimp only
  rcases hft with hf | hf <;> subst hf <;> rfl

/-- Helper: an ASCII value that is not valid UTF-8 is a further
`InvalidData` source (`String::from_utf8` failure). -/
theorem fromReader_ascii_invalid_utf8 (bytes : List ℕ) (e : Endianness)
    (cnt pos : ℕ) (buf : List ℕ) (p : ℕ)
    (hre : readExact bytes pos cnt = .ok (buf, p))
    (hutf : utf8Valid buf = false) :
    TiffFieldValue.fromReader bytes e .ascii cnt pos = .error .invalidData := by
  unfold TiffFieldValue.fromReader
  rw [hre]
  simp [exceptBind_ok, hutf]

/-- C7 amended: the parser fails with `InvalidData` on invalid magic bytes,
version below 42, zero IFD entry count, a field-type code outside the
fourteen-value enum, and a value/offset-slot version other than 42/43; but
the in-enum unimplemented field types `LONG8 = 16` and `SLONG8 = 17` make it
panic (`unimplemented!()`) instead of returning `InvalidData`, and an ASCII
value that is not valid UTF-8 is an additional `InvalidData` case the
claim's list omits. -/
theorem c7_amended_error_cases :
    (∀ (bytes : List ℕ) (m p : ℕ),
      readU16 bytes .littleEndian 0 = .ok (m, p) → m ≠ 0x4949 → m ≠ 0x4D4D →
      TiffHeader.new bytes = .error .invalidData) ∧
    (∀ (bytes : List ℕ) (m p1 ver p2 : ℕ),
      readU16 bytes .littleEndian 0 = .ok (m, p1) →
      m = 0x4949 ∨ m = 0x4D4D →
      readU16 bytes (if m = 0x4949 then .littleEndian else .bigEndian) p1 =
        .ok (ver, p2) →
      ver < 42 → TiffHeader.new bytes = .error .invalidData) ∧
    (∀ (bytes : List ℕ) (e : Endianness) (ver pos : ℕ),
      ver ≠ 42 → ver ≠ 43 → TiffIfd.new bytes e ver pos = .error .invalidData) ∧
    (∀ (bytes : List ℕ) (e : Endianness) (ver pos p1 : ℕ),
      ver = 42 ∨ ver = 43 → readU16 bytes e pos = .ok (0, p1) →
      TiffIfd.new bytes e ver pos = .error .invalidData) ∧
    (∀ (bytes : List ℕ) (e : Endianness) (vos pos t p1 ftRaw p2 cnt p3 : ℕ),
      readU16 bytes e pos = .ok (t, p1) → readU16 bytes e p1 = .ok (ftRaw, p2) →
      readU32 bytes e p2 = .ok (cnt, p3) → TiffFieldType.fromU16 ftRaw = none →
      parseEntry bytes e vos pos = .error .invalidData) ∧
    (∀ (bytes : List ℕ) (e : Endianness) (vos pos t p1 ftRaw p2 cnt p3 : ℕ),
      readU16 bytes e pos = .ok (t, p1) → readU16 bytes e p1 = .ok (ftRaw, p2) →
      readU32 bytes e p2 = .ok (cnt, p3) → ftRaw = 16 ∨ ftRaw = 17 →
      parseEntry bytes e vos pos = .error .panicked) ∧
    (∀ (bytes : List ℕ) (e : Endianness) (cnt pos : ℕ) (buf : List ℕ) (p : ℕ),
      readExact bytes pos cnt = .ok (buf, p) → utf8Valid buf = false →
      TiffFieldValue.fromReader bytes e .ascii cnt pos = .error .invalidData) :=
  ⟨headerNew_magic_invalid, headerNew_version_invalid, ifdNew_version_invalid,
   ifdNew_entryCount_invalid, parseEntry_fieldType_invalid,
   parseEntry_long8_panics, fromReader_ascii_invalid_utf8⟩

/-- C7 amended, witness at concrete inputs. -/
theorem c7_amended_error_cases_witness :
    TiffHeader.new [0, 1] = .error .invalidData ∧
    parseEntry long8Tiff .littleEndian 4 10 = .error .panicked := by
  constructor
  · exact c7_amended_error_cases.1 [0, 1] 256 2 (by decide) (by decide) (by decide)
  · exact c7_amended_error_cases.2.2.2.2.2.1 long8Tiff .littleEndian 4 10 1 12 16 14 1
      18 (by decide) (by decide) (by decide) (Or.inl rfl)

end Uhdr
